import Mathlib

/-!
Verification of the `amfi` NAV-feed parser (`src/lib.rs`).

Strings are modelled as `List Char`.  The source scans `&str` by chars but
slices by byte offsets; all inputs relevant to the claims are ASCII, where the
two coincide, and the character classifiers (`Char.isDigit`, `Char.isAlphanum`,
`Char.isWhitespace`, `Char.toUpper`) agree with their Rust counterparts on
ASCII.

The synom `IResult<&str, T>` is modelled by `PResult`: `done rest value`
mirrors `IResult::Done(rest, value)` and `error` mirrors `IResult::Error`.
A third outcome `panicked` marks the places where the source calls
`.unwrap()` on a fallible standard-library parse and would abort the process;
it is propagated, never caught.

An `f64` produced by `str::parse::<f64>` is represented by the decimal literal
it was parsed from (the consumed character run), since that literal determines
the float value; no floating-point arithmetic is performed anywhere in the
source.  `chrono::NaiveDate` is modelled as a year/month/day triple, and
`NaiveDate::parse_from_str(s, "%d-%b-%Y")` on the exact 11-character slice
taken by the source is modelled on its canonical zero-padded layout
`dd-Mon-yyyy` with real calendar validation (month abbreviations matched
case-insensitively, day bounded by the month length, Gregorian leap years).
-/

def toChars (s : String) : List Char := s.toList

/-- Rust `str::trim` (drop whitespace from both ends). -/
def trimChars (l : List Char) : List Char :=
  ((l.dropWhile Char.isWhitespace).reverse.dropWhile Char.isWhitespace).reverse

/-- Rust `str::find(pat).is_some()`: does `d` occur as a contiguous substring? -/
def containsSub (d : List Char) : List Char → Bool
  | [] => d.isPrefixOf ([] : List Char)
  | c :: cs => d.isPrefixOf (c :: cs) || containsSub d cs

/-- synom `take_until!(d)`: split at the first occurrence of `d`, returning the
text before it and the rest starting with `d`; `none` when `d` never occurs. -/
def takeUntilGo (d : List Char) : List Char → Option (List Char × List Char)
  | [] => if d.isPrefixOf ([] : List Char) then some ([], []) else none
  | c :: cs =>
    if d.isPrefixOf (c :: cs) then some ([], c :: cs)
    else match takeUntilGo d cs with
      | some (cap, rest) => some (c :: cap, rest)
      | none => none

/-- synom `tag!(t)`: consume the literal `t` or fail. -/
def tagL (t input : List Char) : Option (List Char) :=
  if t.isPrefixOf input then some (input.drop t.length) else none

def digitsToNat (l : List Char) : Nat :=
  l.foldl (fun n c => n * 10 + (c.toNat - '0'.toNat)) 0

/-- Outcome of a synom parser on the modelled input: `done`/`error` as in
`IResult`, `panicked` when the source would abort via `.unwrap()`. -/
inductive PResult (α : Type) where
  | done (rest : List Char) (val : α)
  | error
  | panicked
deriving DecidableEq

def PResult.bind {α β : Type} : PResult α → (List Char → α → PResult β) → PResult β
  | .done rest v, f => f rest v
  | .error, _ => .error
  | .panicked, _ => .panicked

/-- `u32::MAX`; `str::parse::<u32>` fails exactly when the value exceeds it. -/
def u32Max : Nat := 4294967295

/-- `fn digit`: maximal ASCII digit run, decoded by
`input[..pos].parse::<u32>().unwrap()` — the unwrap aborts when the run's
value overflows `u32`. -/
def digit (input : List Char) : PResult Nat :=
  let run := input.takeWhile Char.isDigit
  if run.length = 0 then .error
  else if digitsToNat run ≤ u32Max then .done (input.dropWhile Char.isDigit) (digitsToNat run)
  else .panicked

/-- Scan of `fn double`: digits with at most one literal decimal point. -/
def doubleScan : List Char → Bool → Nat
  | [], _ => 0
  | c :: cs, seen =>
    if c.isDigit then 1 + doubleScan cs seen
    else if !seen && c = '.' then 1 + doubleScan cs true
    else 0

/-- `fn double`: the consumed run is decoded by
`input[..pos].parse::<f64>().unwrap()`.  On a nonempty run of digits with at
most one dot that parse succeeds exactly when the run holds at least one
digit; the run `"."` makes the unwrap abort.  The float is represented by its
literal (the consumed run). -/
def double (input : List Char) : PResult (List Char) :=
  let pos := doubleScan input false
  if pos = 0 then .error
  else if (input.take pos).any Char.isDigit then .done (input.drop pos) (input.take pos)
  else .panicked

/-- Model of `chrono::NaiveDate` (proleptic Gregorian year/month/day). -/
structure NaiveDate where
  year : Nat
  month : Nat
  day : Nat
deriving DecidableEq

def isLeapYear (y : Nat) : Bool :=
  (y % 4 = 0 && y % 100 ≠ 0) || y % 400 = 0

def daysInMonth (y m : Nat) : Nat :=
  if m = 2 then (if isLeapYear y then 29 else 28)
  else if m = 4 || m = 6 || m = 9 || m = 11 then 30
  else 31

/-- `%b`: case-insensitive three-letter month abbreviation. -/
def monthNum (c1 c2 c3 : Char) : Option Nat :=
  match c1.toUpper, c2.toUpper, c3.toUpper with
  | 'J', 'A', 'N' => some 1
  | 'F', 'E', 'B' => some 2
  | 'M', 'A', 'R' => some 3
  | 'A', 'P', 'R' => some 4
  | 'M', 'A', 'Y' => some 5
  | 'J', 'U', 'N' => some 6
  | 'J', 'U', 'L' => some 7
  | 'A', 'U', 'G' => some 8
  | 'S', 'E', 'P' => some 9
  | 'O', 'C', 'T' => some 10
  | 'N', 'O', 'V' => some 11
  | 'D', 'E', 'C' => some 12
  | _, _, _ => none

/-- `fn date`: take the 11-character slice `input.get(..11)` (fail when fewer
than 11 characters remain) and parse it with format `"%d-%b-%Y"` in its
canonical `dd-Mon-yyyy` layout, validating the calendar date. -/
def date (input : List Char) : PResult NaiveDate :=
  match input with
  | d1 :: d2 :: h1 :: m1 :: m2 :: m3 :: h2 :: y1 :: y2 :: y3 :: y4 :: rest =>
    if d1.isDigit && d2.isDigit && h1 = '-' && h2 = '-'
        && y1.isDigit && y2.isDigit && y3.isDigit && y4.isDigit then
      match monthNum m1 m2 m3 with
      | some m =>
        let dayN := digitsToNat [d1, d2]
        let yearN := digitsToNat [y1, y2, y3, y4]
        if 1 ≤ dayN && dayN ≤ daysInMonth yearN m then
          .done rest { year := yearN, month := m, day := dayN }
        else .error
      | none => .error
    else .error
  | _ => .error

/-- `fn alphanumeric`: maximal alphanumeric run, failing when empty. -/
def alphanumeric (input : List Char) : PResult (List Char) :=
  let run := input.takeWhile Char.isAlphanum
  if run.length = 0 then .error
  else .done (input.drop run.length) run

/-- `fn custom_seperator`: skip a maximal run of whitespace and semicolons;
always succeeds. -/
def custom_seperator (input : List Char) : PResult Unit :=
  .done (input.dropWhile (fun c => c.isWhitespace || c = ';')) ()

/-- `enum FundMaturity`. -/
inductive FundMaturity where
  | openEnded
  | closeEnded
deriving DecidableEq

/-- `enum FundPlan`. -/
inductive FundPlan where
  | regular
  | direct
deriving DecidableEq

/-- `parse_isin`: `alt!(alphanumeric | tag!("---") | tag!("-"))` mapped so the
placeholder tokens `"-"` and `"---"` decode to an absent ISIN. -/
def parse_isin (input : List Char) : PResult (Option (List Char)) :=
  let alts : PResult (List Char) :=
    match alphanumeric input with
    | .done r v => .done r v
    | _ =>
      match tagL (toChars "---") input with
      | some r => .done r (toChars "---")
      | none =>
        match tagL (toChars "-") input with
        | some r => .done r (toChars "-")
        | none => .error
  match alts with
  | .done r s =>
    .done r (if s = toChars "-" || s = toChars "---" then none else some s)
  | .error => .error
  | .panicked => .panicked

/-- `parse_name`: capture up to the next `";"`, trim, and derive the plan by
searching the uppercased name for `"DIRECT"`; the option sub-field is always
absent. -/
def parse_name (input : List Char) : PResult (List Char × FundPlan × Option (List Char)) :=
  match takeUntilGo (toChars ";") input with
  | some (cap, rest) =>
    let name := trimChars cap
    let plan :=
      if containsSub (toChars "DIRECT") (name.map Char.toUpper) then FundPlan.direct
      else FundPlan.regular
    .done rest (name, plan, none)
  | none => .error

/-- `struct NavRecord` (nav as its decimal literal, see the header comment). -/
structure NavRecord where
  code : Nat
  isin : Option (List Char)
  isin_dr : Option (List Char)
  name : List Char
  nav : List Char
  date : NaiveDate
  amc : List Char
  category : List Char
  scheme : Option (List Char)
  maturity : Option FundMaturity
  plan : FundPlan
  option : Option (List Char)
deriving DecidableEq

/-- `NavRecordBuilder` from `derive_builder`: every field starts unset and a
setter wraps its argument in `Some`. -/
structure NavRecordBuilder where
  code : Option Nat := none
  isin : Option (Option (List Char)) := none
  isin_dr : Option (Option (List Char)) := none
  name : Option (List Char) := none
  nav : Option (List Char) := none
  date : Option NaiveDate := none
  amc : Option (List Char) := none
  category : Option (List Char) := none
  scheme : Option (Option (List Char)) := none
  maturity : Option (Option FundMaturity) := none
  plan : Option FundPlan := none
  option : Option (Option (List Char)) := none
deriving DecidableEq

/-- `NavRecordBuilder::build`: fails naming the first field that was never
set, otherwise produces the immutable record. -/
def NavRecordBuilder.build (b : NavRecordBuilder) : Except (List Char) NavRecord :=
  match b.code with
  | none => .error (toChars "code")
  | some code =>
  match b.isin with
  | none => .error (toChars "isin")
  | some isin =>
  match b.isin_dr with
  | none => .error (toChars "isin_dr")
  | some isin_dr =>
  match b.name with
  | none => .error (toChars "name")
  | some name =>
  match b.nav with
  | none => .error (toChars "nav")
  | some nav =>
  match b.date with
  | none => .error (toChars "date")
  | some dt =>
  match b.amc with
  | none => .error (toChars "amc")
  | some amc =>
  match b.category with
  | none => .error (toChars "category")
  | some category =>
  match b.scheme with
  | none => .error (toChars "scheme")
  | some scheme =>
  match b.maturity with
  | none => .error (toChars "maturity")
  | some maturity =>
  match b.plan with
  | none => .error (toChars "plan")
  | some plan =>
  match b.option with
  | none => .error (toChars "option")
  | some opt =>
    .ok { code := code, isin := isin, isin_dr := isin_dr, name := name, nav := nav,
          date := dt, amc := amc, category := category, scheme := scheme,
          maturity := maturity, plan := plan, option := opt }

/-- `parse_record`: the `do_parse!` chain
`digit >> sep >> isin >> sep >> isin_dr >> sep >> name >> sep >> double >> sep
>> date`, yielding a builder with the eight data-line fields set. -/
def parse_record (input : List Char) : PResult NavRecordBuilder :=
  (digit input).bind fun r1 code =>
  (custom_seperator r1).bind fun r2 _ =>
  (parse_isin r2).bind fun r3 isin =>
  (custom_seperator r3).bind fun r4 _ =>
  (parse_isin r4).bind fun r5 isin_dr =>
  (custom_seperator r5).bind fun r6 _ =>
  (parse_name r6).bind fun r7 np =>
  (custom_seperator r7).bind fun r8 _ =>
  (double r8).bind fun r9 nav =>
  (custom_seperator r9).bind fun r10 _ =>
  (date r10).bind fun r11 dt =>
  .done r11 { code := some code, isin := some isin, isin_dr := some isin_dr,
              name := some np.1, plan := some np.2.1, option := some np.2.2,
              nav := some nav, date := some dt }

/-- Maturity classification inside `parse_scheme`: trim, uppercase, and test
the `"CLOSE"` / `"OPEN"` leading tokens. -/
def matFromText (t : List Char) : Option FundMaturity :=
  let muc := (trimChars t).map Char.toUpper
  if (toChars "CLOSE").isPrefixOf muc then some FundMaturity.closeEnded
  else if (toChars "OPEN").isPrefixOf muc then some FundMaturity.openEnded
  else none

/-- `option!(terminated!(take_until!(" - "), tag!(" - ")))` inside
`parse_scheme`: on failure of the inner parser the original input is
restored and the capture is absent. -/
def schemeGroupStep (r2 : List Char) : Option (List Char) × List Char :=
  match takeUntilGo (toChars " - ") r2 with
  | some (cap, ra) =>
    match tagL (toChars " - ") ra with
    | some rb => (some cap, rb)
    | none => (none, r2)
  | none => (none, r2)

/-- `parse_scheme`: `take_until!("(") >> tag!("(") >>
option!(terminated!(take_until!(" - "), tag!(" - "))) >> take_until!(")")`
with the maturity classified from the leading capture. -/
def parse_scheme (input : List Char) :
    PResult (Option FundMaturity × Option (List Char) × List Char) :=
  match takeUntilGo (toChars "(") input with
  | none => .error
  | some (mat, r1) =>
    match tagL (toChars "(") r1 with
    | none => .error
    | some r2 =>
      match schemeGroupStep r2 with
      | (sch, r3) =>
        match takeUntilGo (toChars ")") r3 with
        | none => .error
        | some (cat, r4) => .done r4 (matFromText mat, sch, cat)

/-- `enum LineType`. -/
inductive LineType where
  | record
  | amc
  | scheme
  | blank
  | header
deriving DecidableEq

/-- `NavRecordIterator::line_type`, applied to the raw line buffer. -/
def line_type (buf : List Char) : LineType :=
  if (toChars "Scheme").isPrefixOf buf then .header
  else if buf.contains ';' then .record
  else if containsSub (toChars "Ended Scheme") buf then .scheme
  else if !(trimChars buf).isEmpty then .amc
  else .blank

/-- Errors a parse session can yield per item.  The source's `Error` enum also
carries IO/HTTP variants raised by the out-of-scope transport collaborators;
within one session over an in-memory line list only these two arise. -/
inductive AmfiError where
  | synomError (line : List Char)
  | builderError (msg : List Char)
deriving DecidableEq

abbrev Item := Except AmfiError NavRecord

/-- The mutable fields of `struct NavRecordIterator` (its Parse Context plus
the bailout flag); the reader is modelled as the list of remaining lines
passed alongside, each line given without its terminating newline (the
newline is whitespace, which none of the classifiers or trims observe). -/
structure NavRecordIterator where
  amc : List Char
  category : List Char
  scheme : Option (List Char)
  maturity : Option FundMaturity
  bailout : Bool
deriving DecidableEq

/-- `NavRecordIterator::new`. -/
def NavRecordIterator.new : NavRecordIterator :=
  { amc := [], category := [], scheme := none, maturity := none, bailout := false }

/-- The context snapshot taken in the `LineType::Record` arm of `next`:
`rb.maturity(..).amc(..).scheme(..).category(..)`. -/
def withContext (rb : NavRecordBuilder) (s : NavRecordIterator) : NavRecordBuilder :=
  { rb with maturity := some s.maturity, amc := some s.amc,
            scheme := some s.scheme, category := some s.category }

/-- `Iterator::next` for `NavRecordIterator`: one pull.  Returns the yielded
item (`none` inside the triple meaning iteration ended), the new state, and
the unread lines; the outer `none` marks a process abort (a lexer panic)
propagating out of `parse_record`. -/
def nextItem : NavRecordIterator → List (List Char) →
    Option (Option Item × NavRecordIterator × List (List Char))
  | s, [] => some (none, s, [])
  | s, l :: ls =>
    if s.bailout then some (none, s, l :: ls)
    else
      match line_type l with
      | .record =>
        match parse_record (trimChars l) with
        | .done _ rb =>
          some (some (((withContext rb s).build).mapError AmfiError.builderError), s, ls)
        | .error => some (some (.error (.synomError (trimChars l))), s, ls)
        | .panicked => none
      | .scheme =>
        match parse_scheme (trimChars l) with
        | .done _ (m, g, c) =>
          nextItem { s with maturity := m, scheme := g, category := c } ls
        | .error => some (some (.error (.synomError l)), { s with bailout := true }, ls)
        | .panicked => none
      | .amc => nextItem { s with amc := trimChars l } ls
      | .blank => nextItem s ls
      | .header => nextItem s ls

/-- Drain the iterator: the full item sequence of one parse session
(`none` when some pull aborts the process).  Every productive pull consumes
at least one line, so `lines.length + 1` fuel is never exhausted. -/
def runIterF : Nat → NavRecordIterator → List (List Char) → Option (List Item)
  | 0, _, _ => some []
  | fuel + 1, s, lines =>
    match nextItem s lines with
    | none => none
    | some (none, _, _) => some []
    | some (some it, s', lines') =>
      match runIterF fuel s' lines' with
      | none => none
      | some items => some (it :: items)

def runIter (s : NavRecordIterator) (lines : List (List Char)) : Option (List Item) :=
  runIterF (lines.length + 1) s lines

/-! ### Helper lemmas -/

theorem PResult.bind_done {α β : Type} {x : PResult α} {f : List Char → α → PResult β}
    {r : List Char} {v : β} (h : x.bind f = .done r v) :
    ∃ r' v', x = .done r' v' ∧ f r' v' = .done r v := by
  cases x with
  | done r0 v0 => exact ⟨r0, v0, rfl, h⟩
  | error => simp [PResult.bind] at h
  | panicked => simp [PResult.bind] at h

theorem takeUntilGo_eq_none_iff (d xs : List Char) :
    takeUntilGo d xs = none ↔ containsSub d xs = false := by
  induction xs with
  | nil =>
    cases h : d.isPrefixOf ([] : List Char) <;> simp [takeUntilGo, containsSub, h]
  | cons c cs ih =>
    cases h : d.isPrefixOf (c :: cs)
    · cases h2 : takeUntilGo d cs with
      | none =>
        rw [h2] at ih
        simp [takeUntilGo, containsSub, h, h2, ← ih]
      | some pr =>
        rw [h2] at ih
        simp [takeUntilGo, containsSub, h, h2, ← ih]
    · simp [takeUntilGo, containsSub, h]

theorem takeUntilGo_eq_some {d xs cap rest : List Char}
    (h : takeUntilGo d xs = some (cap, rest)) :
    xs = cap ++ rest ∧ d.isPrefixOf rest = true := by
  induction xs generalizing cap with
  | nil =>
    unfold takeUntilGo at h
    split at h
    · next hp =>
      obtain ⟨rfl, rfl⟩ : cap = [] ∧ rest = [] := by
        constructor <;> cases h <;> rfl
      exact ⟨rfl, hp⟩
    · cases h
  | cons c cs ih =>
    unfold takeUntilGo at h
    split at h
    · next hp =>
      obtain ⟨rfl, rfl⟩ : cap = [] ∧ rest = c :: cs := by
        constructor <;> cases h <;> rfl
      exact ⟨rfl, hp⟩
    · next hp =>
      cases h2 : takeUntilGo d cs with
      | none => rw [h2] at h; cases h
      | some pr =>
        obtain ⟨cap', rest'⟩ := pr
        rw [h2] at h
        obtain ⟨rfl, rfl⟩ : cap = c :: cap' ∧ rest = rest' := by
          constructor <;> cases h <;> rfl
        obtain ⟨hx, hpre⟩ := ih h2
        exact ⟨by rw [hx, List.cons_append], hpre⟩

theorem takeUntilGo_single {c : Char} {xs ys : List Char} (h : c ∉ xs) :
    takeUntilGo [c] (xs ++ c :: ys) = some (xs, c :: ys) := by
  induction xs with
  | nil => simp [takeUntilGo, List.isPrefixOf]
  | cons x xs' ih =>
    have hx : (c == x) = false := by
      have : c ≠ x := fun he => h (by simp [he])
      simpa using this
    have ih' := ih (fun hm => h (List.mem_cons_of_mem _ hm))
    simp [takeUntilGo, List.isPrefixOf, hx, ih']

theorem tagL_of_isPrefixOf {d rest : List Char} (h : d.isPrefixOf rest = true) :
    tagL d rest = some (rest.drop d.length) := by
  simp [tagL, h]

theorem nextItem_bailout (s : NavRecordIterator) (lines : List (List Char))
    (h : s.bailout = true) : nextItem s lines = some (none, s, lines) := by
  cases lines with
  | nil => rfl
  | cons l ls => simp [nextItem, h]

theorem runIterF_bailout (fuel : Nat) (s : NavRecordIterator) (lines : List (List Char))
    (h : s.bailout = true) : runIterF fuel s lines = some [] := by
  cases fuel with
  | zero => rfl
  | succ n => simp [runIterF, nextItem_bailout _ _ h]

theorem runIterF_succ (fuel : Nat) (s : NavRecordIterator) (lines : List (List Char)) :
    runIterF (fuel + 1) s lines =
      match nextItem s lines with
      | none => none
      | some (none, _, _) => some []
      | some (some it, s', lines') =>
        match runIterF fuel s' lines' with
        | none => none
        | some items => some (it :: items) := rfl

/-- Any successful `parse_record` sets all eight data-line builder fields, so
after the context snapshot the build yields a record carrying exactly the
session's context in the four inherited fields. -/
theorem parse_record_build {input r : List Char} {rb : NavRecordBuilder}
    (h : parse_record input = .done r rb) (s : NavRecordIterator) :
    ∃ cd isn idr nm pl op nv dt,
      (withContext rb s).build =
        Except.ok { code := cd, isin := isn, isin_dr := idr, name := nm, nav := nv,
                    date := dt, amc := s.amc, category := s.category,
                    scheme := s.scheme, maturity := s.maturity, plan := pl, option := op } := by
  unfold parse_record at h
  obtain ⟨r1, cd, h1, h⟩ := PResult.bind_done h
  obtain ⟨r2, u2, h2, h⟩ := PResult.bind_done h
  obtain ⟨r3, isn, h3, h⟩ := PResult.bind_done h
  obtain ⟨r4, u4, h4, h⟩ := PResult.bind_done h
  obtain ⟨r5, idr, h5, h⟩ := PResult.bind_done h
  obtain ⟨r6, u6, h6, h⟩ := PResult.bind_done h
  obtain ⟨r7, np, h7, h⟩ := PResult.bind_done h
  obtain ⟨r8, u8, h8, h⟩ := PResult.bind_done h
  obtain ⟨r9, nv, h9, h⟩ := PResult.bind_done h
  obtain ⟨r10, u10, h10, h⟩ := PResult.bind_done h
  obtain ⟨r11, dt, h11, h⟩ := PResult.bind_done h
  injection h with hr hb
  subst hb
  exact ⟨cd, isn, idr, np.1, np.2.1, np.2.2, nv, dt, rfl⟩

/-! ### Claims -/

/-- C1: the claim says the decimal-integer lexer returns an unsigned integer or
a parse error on any maximal digit run, and the decimal-float lexer returns a
value or a parse error on any input starting with a digit or a point, with no
lexer aborting the program.  The code violates this: `digit` reaches the
`.unwrap()` abort on the ten-digit run `"4294967296"` (its value exceeds
`u32::MAX`, so `str::parse::<u32>` fails), and `double` reaches it on `"."`
(the consumed run `"."` is rejected by `str::parse::<f64>`). -/
theorem lexer_unwrap_aborts :
    digit (toChars "4294967296") = PResult.panicked ∧
    double (toChars ".") = PResult.panicked :=
  ⟨rfl, rfl⟩

/-- C4: the three-line scenario — Amc line `Example AMC`, Scheme line
`Open Ended Scheme (Regular - Equity Scheme)`, then the data line — yields
exactly one item, the fully assembled Record with all twelve fields as the
claim lists them (nav represented by its decimal literal `15.1234`). -/
theorem scenario_record_assembly :
    runIter NavRecordIterator.new
      [toChars "Example AMC",
       toChars "Open Ended Scheme (Regular - Equity Scheme)",
       toChars "123;INE123A01012;-;Sample Fund - Direct Plan;15.1234;01-Jan-2020"] =
    some [Except.ok
      { code := 123, isin := some (toChars "INE123A01012"), isin_dr := none,
        name := toChars "Sample Fund - Direct Plan", nav := toChars "15.1234",
        date := { year := 2020, month := 1, day := 1 },
        amc := toChars "Example AMC", category := toChars "Equity Scheme",
        scheme := some (toChars "Regular"), maturity := some FundMaturity.openEnded,
        plan := FundPlan.direct, option := none }] := rfl

/-- C5: a Scheme-classified line on which the section-header parser fails
yields exactly one structured error item and then the session yields no
further items ever, whatever lines follow: the full drained output of the
session from that line on is exactly the one error. -/
theorem scheme_failure_bailout (s : NavRecordIterator) (l : List Char)
    (rest : List (List Char)) (hb : s.bailout = false)
    (hl : line_type l = .scheme) (hp : parse_scheme (trimChars l) = .error) :
    runIter s (l :: rest) = some [Except.error (AmfiError.synomError l)] := by
  have hn : nextItem s (l :: rest) =
      some (some (.error (.synomError l)), { s with bailout := true }, rest) := by
    simp [nextItem, hb, hl, hp]
  have h2 : runIterF (rest.length + 1) { s with bailout := true } rest = some [] :=
    runIterF_bailout _ _ _ rfl
  unfold runIter
  have hlen : (l :: rest).length + 1 = rest.length + 1 + 1 := by simp
  rw [hlen, runIterF_succ, hn]
  simp [h2]

theorem scheme_failure_bailout_witness :
    runIter NavRecordIterator.new
      [toChars "Open Ended Scheme (broken",
       toChars "Example AMC",
       toChars "Open Ended Scheme (Regular - Equity Scheme)",
       toChars "123;INE123A01012;-;Sample Fund - Direct Plan;15.1234;01-Jan-2020"] =
    some [Except.error (AmfiError.synomError (toChars "Open Ended Scheme (broken"))] :=
  scheme_failure_bailout _ _ _ rfl rfl rfl

/-- C3: the classifier assigns exactly one of the five categories by priority:
`"Scheme"`-prefixed lines are Header; otherwise a semicolon makes Record;
otherwise the substring `"Ended Scheme"` makes Scheme; otherwise a line that
is non-empty after trimming is Amc; otherwise Blank. -/
theorem line_type_priority (l : List Char) :
    (line_type l = .header ↔ (toChars "Scheme").isPrefixOf l = true) ∧
    (line_type l = .record ↔
      (toChars "Scheme").isPrefixOf l = false ∧ l.contains ';' = true) ∧
    (line_type l = .scheme ↔
      (toChars "Scheme").isPrefixOf l = false ∧ l.contains ';' = false ∧
      containsSub (toChars "Ended Scheme") l = true) ∧
    (line_type l = .amc ↔
      (toChars "Scheme").isPrefixOf l = false ∧ l.contains ';' = false ∧
      containsSub (toChars "Ended Scheme") l = false ∧ (trimChars l).isEmpty = false) ∧
    (line_type l = .blank ↔
      (toChars "Scheme").isPrefixOf l = false ∧ l.contains ';' = false ∧
      containsSub (toChars "Ended Scheme") l = false ∧ (trimChars l).isEmpty = true) := by
  unfold line_type
  cases h1 : (toChars "Scheme").isPrefixOf l <;>
    cases h2 : l.contains ';' <;>
      cases h3 : containsSub (toChars "Ended Scheme") l <;>
        cases h4 : (trimChars l).isEmpty <;>
          simp

theorem line_type_priority_witness :
    line_type (toChars "Scheme Code;ISIN Div Payout/ ISIN Growth") = LineType.header :=
  (line_type_priority (toChars "Scheme Code;ISIN Div Payout/ ISIN Growth")).1.mpr (by decide)

/-- C2 (amended): for a section-marker line of the shape
`pre ++ "(" ++ body ++ ")" ++ tail` (first parentheses made explicit by
`'(' ∉ pre` and `')' ∉ body`), the scheme-group label is absent exactly when
the literal `" - "` does not occur anywhere after the opening parenthesis —
not merely before the closing one.  When it occurs nowhere, the parse
succeeds with the category captured up to `")"`; an occurrence only after the
closing parenthesis is swallowed by the group capture instead (see the
counterexample, where the parse then fails for want of a later `")"`). -/
theorem parse_scheme_group_absent_iff
    (pre body tail : List Char) (h1 : '(' ∉ pre) (h2 : ')' ∉ body) :
    (containsSub (toChars " - ") (body ++ ')' :: tail) = false →
      parse_scheme (pre ++ '(' :: (body ++ ')' :: tail)) =
        PResult.done (')' :: tail) (matFromText pre, none, body)) ∧
    (∀ r m c, parse_scheme (pre ++ '(' :: (body ++ ')' :: tail)) =
        PResult.done r (m, none, c) →
      containsSub (toChars " - ") (body ++ ')' :: tail) = false) := by
  have hop : toChars "(" = ['('] := rfl
  have hcl : toChars ")" = [')'] := rfl
  have e1 : takeUntilGo (toChars "(") (pre ++ '(' :: (body ++ ')' :: tail)) =
      some (pre, '(' :: (body ++ ')' :: tail)) := by
    rw [hop]; exact takeUntilGo_single h1
  have e2 : tagL (toChars "(") ('(' :: (body ++ ')' :: tail)) =
      some (body ++ ')' :: tail) := by
    rw [hop]; simp [tagL, List.isPrefixOf]
  have e4 : takeUntilGo (toChars ")") (body ++ ')' :: tail) = some (body, ')' :: tail) := by
    rw [hcl]; exact takeUntilGo_single h2
  constructor
  · intro hno
    have e3 : takeUntilGo (toChars " - ") (body ++ ')' :: tail) = none :=
      (takeUntilGo_eq_none_iff _ _).mpr hno
    simp [parse_scheme, e1, e2, schemeGroupStep, e3, e4]
  · intro r m c hdone
    by_contra hx
    have hne : takeUntilGo (toChars " - ") (body ++ ')' :: tail) ≠ none := by
      intro h0
      exact hx ((takeUntilGo_eq_none_iff _ _).mp h0)
    obtain ⟨pr, hcr⟩ := Option.ne_none_iff_exists'.mp hne
    obtain ⟨cap, rest'⟩ := pr
    obtain ⟨hsplit, hpre⟩ := takeUntilGo_eq_some hcr
    have e5 : tagL (toChars " - ") rest' = some (rest'.drop (toChars " - ").length) :=
      tagL_of_isPrefixOf hpre
    simp only [parse_scheme, e1, e2, schemeGroupStep, hcr, e5] at hdone
    cases h6 : takeUntilGo (toChars ")") (rest'.drop (toChars " - ").length) with
    | none => rw [h6] at hdone; cases hdone
    | some pr2 =>
      obtain ⟨cat, r4⟩ := pr2
      rw [h6] at hdone
      simp at hdone

/-- C2 counterexample: on the Scheme-classified line
`Open Ended Scheme (Equity Scheme) - x` the literal `" - "` does not occur
before the closing parenthesis, so the claim demands a successful parse with
an absent scheme-group label — but the parse fails: the group capture runs
past `")"` and the category capture then finds no later `")"`. -/
theorem parse_scheme_group_after_close_fails :
    line_type (toChars "Open Ended Scheme (Equity Scheme) - x") = LineType.scheme ∧
    containsSub (toChars " - ") (toChars "Equity Scheme") = false ∧
    parse_scheme (toChars "Open Ended Scheme (Equity Scheme) - x") = PResult.error :=
  ⟨rfl, rfl, rfl⟩

theorem parse_scheme_group_absent_iff_witness :
    parse_scheme (toChars "Open Ended Scheme " ++ '(' :: (toChars "Equity Scheme" ++ ')' :: [])) =
      PResult.done (')' :: [])
        (matFromText (toChars "Open Ended Scheme "), none, toChars "Equity Scheme") :=
  (parse_scheme_group_absent_iff (toChars "Open Ended Scheme ") (toChars "Equity Scheme") []
    (by decide) (by decide)).1 (by decide)

/-- C6: a Record-classified line on which the data-line parser fails yields
exactly one error item carrying that line's (trimmed) text, leaves the Parse
Context unchanged (the state returned is the state entered), and the session
continues: a well-formed data line processed from that same state still
yields its Record normally. -/
theorem record_failure_local :
    (∀ (s : NavRecordIterator) (l : List Char) (ls : List (List Char)),
      s.bailout = false → line_type l = .record → parse_record (trimChars l) = .error →
      nextItem s (l :: ls) =
        some (some (.error (.synomError (trimChars l))), s, ls)) ∧
    (∀ (s : NavRecordIterator) (l : List Char) (ls : List (List Char))
        (r : List Char) (rb : NavRecordBuilder),
      s.bailout = false → line_type l = .record → parse_record (trimChars l) = .done r rb →
      ∃ rec, nextItem s (l :: ls) = some (some (.ok rec), s, ls)) := by
  constructor
  · intro s l ls hb hl hp
    simp [nextItem, hb, hl, hp]
  · intro s l ls r rb hb hl hp
    obtain ⟨cd, isn, idr, nm, pl, op, nv, dt, hbuild⟩ := parse_record_build hp s
    refine ⟨{ code := cd, isin := isn, isin_dr := idr, name := nm, nav := nv, date := dt,
              amc := s.amc, category := s.category, scheme := s.scheme,
              maturity := s.maturity, plan := pl, option := op }, ?_⟩
    simp [nextItem, hb, hl, hp, hbuild, Except.mapError]

theorem record_failure_local_witness :
    nextItem NavRecordIterator.new [toChars "123;INE;-;x"] =
      some (some (Except.error (AmfiError.synomError (trimChars (toChars "123;INE;-;x")))),
            NavRecordIterator.new, []) ∧
    (∃ rec, nextItem NavRecordIterator.new [toChars "1;-;-;x;1;01-Jan-2020"] =
      some (some (Except.ok rec), NavRecordIterator.new, [])) :=
  ⟨record_failure_local.1 _ _ _ rfl rfl rfl,
   record_failure_local.2 _ _ _ _ _ rfl rfl rfl⟩

/-- C7: an Amc-classified line updates only the fund-family field of the
context; Blank and Header lines leave the whole context unchanged; and every
Record emitted from a state carries that state's fund-family value — so the
value persists until another Amc line overwrites it. -/
theorem amc_context_persistence :
    (∀ (s : NavRecordIterator) (l : List Char) (ls : List (List Char)),
      s.bailout = false → line_type l = .amc →
      nextItem s (l :: ls) = nextItem { s with amc := trimChars l } ls) ∧
    (∀ (s : NavRecordIterator) (l : List Char) (ls : List (List Char)),
      s.bailout = false → (line_type l = .blank ∨ line_type l = .header) →
      nextItem s (l :: ls) = nextItem s ls) ∧
    (∀ (s : NavRecordIterator) (l : List Char) (ls : List (List Char))
        (r : List Char) (rb : NavRecordBuilder),
      s.bailout = false → line_type l = .record → parse_record (trimChars l) = .done r rb →
      ∃ rec, nextItem s (l :: ls) = some (some (.ok rec), s, ls) ∧ rec.amc = s.amc) := by
  refine ⟨?_, ?_, ?_⟩
  · intro s l ls hb hl
    simp [nextItem, hb, hl]
  · intro s l ls hb hl
    cases hl with
    | inl h => simp [nextItem, hb, h]
    | inr h => simp [nextItem, hb, h]
  · intro s l ls r rb hb hl hp
    obtain ⟨cd, isn, idr, nm, pl, op, nv, dt, hbuild⟩ := parse_record_build hp s
    refine ⟨{ code := cd, isin := isn, isin_dr := idr, name := nm, nav := nv, date := dt,
              amc := s.amc, category := s.category, scheme := s.scheme,
              maturity := s.maturity, plan := pl, option := op }, ?_, rfl⟩
    simp [nextItem, hb, hl, hp, hbuild, Except.mapError]

theorem amc_context_persistence_witness :
    nextItem NavRecordIterator.new [toChars "Example AMC"] =
      nextItem { NavRecordIterator.new with amc := trimChars (toChars "Example AMC") } [] ∧
    nextItem NavRecordIterator.new [([] : List Char)] = nextItem NavRecordIterator.new [] ∧
    (∃ rec, nextItem NavRecordIterator.new [toChars "1;-;-;x;1;01-Jan-2020"] =
        some (some (Except.ok rec), NavRecordIterator.new, []) ∧
      rec.amc = NavRecordIterator.new.amc) :=
  ⟨amc_context_persistence.1 _ _ _ rfl rfl,
   amc_context_persistence.2.1 _ _ _ rfl (Or.inl rfl),
   amc_context_persistence.2.2 _ _ _ _ _ rfl rfl rfl⟩

/-- C8: a Scheme-classified line changes maturity, scheme-group, and category
atomically: a successful section-header parse overwrites all three together
(and nothing else), a failed parse changes none of them (only the bailout
flag is set), and a Record emitted from a state carries exactly that state's
three values — so the new values are the ones combined into the very next
Record-classified line's output. -/
theorem scheme_context_atomic :
    (∀ (s : NavRecordIterator) (l : List Char) (ls : List (List Char))
        (r : List Char) (m : Option FundMaturity) (g : Option (List Char)) (c : List Char),
      s.bailout = false → line_type l = .scheme →
      parse_scheme (trimChars l) = .done r (m, g, c) →
      nextItem s (l :: ls) =
        nextItem { s with maturity := m, scheme := g, category := c } ls) ∧
    (∀ (s : NavRecordIterator) (l : List Char) (ls : List (List Char)),
      s.bailout = false → line_type l = .scheme → parse_scheme (trimChars l) = .error →
      nextItem s (l :: ls) =
        some (some (.error (.synomError l)), { s with bailout := true }, ls)) ∧
    (∀ (s : NavRecordIterator) (l : List Char) (ls : List (List Char))
        (r : List Char) (rb : NavRecordBuilder),
      s.bailout = false → line_type l = .record → parse_record (trimChars l) = .done r rb →
      ∃ rec, nextItem s (l :: ls) = some (some (.ok rec), s, ls) ∧
        rec.maturity = s.maturity ∧ rec.scheme = s.scheme ∧ rec.category = s.category) := by
  refine ⟨?_, ?_, ?_⟩
  · intro s l ls r m g c hb hl hp
    simp [nextItem, hb, hl, hp]
  · intro s l ls hb hl hp
    simp [nextItem, hb, hl, hp]
  · intro s l ls r rb hb hl hp
    obtain ⟨cd, isn, idr, nm, pl, op, nv, dt, hbuild⟩ := parse_record_build hp s
    refine ⟨{ code := cd, isin := isn, isin_dr := idr, name := nm, nav := nv, date := dt,
              amc := s.amc, category := s.category, scheme := s.scheme,
              maturity := s.maturity, plan := pl, option := op }, ?_, rfl, rfl, rfl⟩
    simp [nextItem, hb, hl, hp, hbuild, Except.mapError]

theorem scheme_context_atomic_witness :
    nextItem NavRecordIterator.new [toChars "Open Ended Scheme (Regular - Equity Scheme)"] =
      nextItem { NavRecordIterator.new with
                   maturity := some FundMaturity.openEnded,
                   scheme := some (toChars "Regular"),
                   category := toChars "Equity Scheme" } [] ∧
    nextItem NavRecordIterator.new [toChars "Open Ended Scheme (broken"] =
      some (some (Except.error (AmfiError.synomError (toChars "Open Ended Scheme (broken"))),
            { NavRecordIterator.new with bailout := true }, []) ∧
    (∃ rec, nextItem NavRecordIterator.new [toChars "1;-;-;x;1;01-Jan-2020"] =
        some (some (Except.ok rec), NavRecordIterator.new, []) ∧
      rec.maturity = NavRecordIterator.new.maturity ∧
      rec.scheme = NavRecordIterator.new.scheme ∧
      rec.category = NavRecordIterator.new.category) :=
  ⟨scheme_context_atomic.1 _ _ _ _ _ _ _ rfl rfl rfl,
   scheme_context_atomic.2.1 _ _ _ rfl rfl rfl,
   scheme_context_atomic.2.2 _ _ _ _ _ rfl rfl rfl⟩

/-- C9: a fresh session starts from the empty context (empty fund-family and
category, absent scheme-group and maturity, bailout unset), the whole session
is a pure function of the input lines, and two sessions over byte-for-byte
identical input produce identical output sequences. -/
theorem session_determinism :
    NavRecordIterator.new.amc = [] ∧ NavRecordIterator.new.category = [] ∧
    NavRecordIterator.new.scheme = none ∧ NavRecordIterator.new.maturity = none ∧
    NavRecordIterator.new.bailout = false ∧
    ∀ lines1 lines2 : List (List Char), lines1 = lines2 →
      runIter NavRecordIterator.new lines1 = runIter NavRecordIterator.new lines2 :=
  ⟨rfl, rfl, rfl, rfl, rfl, fun _ _ h => by rw [h]⟩

theorem session_determinism_witness :
    runIter NavRecordIterator.new
        [toChars "Example AMC", toChars "1;-;-;x;1;01-Jan-2020"] =
      runIter NavRecordIterator.new
        [toChars "Example AMC", toChars "1;-;-;x;1;01-Jan-2020"] :=
  session_determinism.2.2.2.2.2 _ _ rfl

/-- C10: whenever the data-line parser succeeds, the subsequent build step
succeeds (the parser sets the eight data fields, the assembler adds the four
context fields, so no builder field is missing), and consequently no pull of
the iterator ever yields a builder error. -/
theorem build_never_fails :
    (∀ (input r : List Char) (rb : NavRecordBuilder),
      parse_record input = .done r rb → ∀ s : NavRecordIterator,
      ∃ rec, (withContext rb s).build = Except.ok rec) ∧
    (∀ (s : NavRecordIterator) (lines : List (List Char))
        (res : Option Item × NavRecordIterator × List (List Char)),
      nextItem s lines = some res →
      ∀ m : List Char, res.1 ≠ some (Except.error (AmfiError.builderError m))) := by
  have key : ∀ (input r : List Char) (rb : NavRecordBuilder),
      parse_record input = .done r rb → ∀ s : NavRecordIterator,
      ∃ rec, (withContext rb s).build = Except.ok rec := by
    intro input r rb h s
    obtain ⟨cd, isn, idr, nm, pl, op, nv, dt, hbuild⟩ := parse_record_build h s
    exact ⟨_, hbuild⟩
  refine ⟨key, ?_⟩
  intro s lines
  induction lines generalizing s with
  | nil =>
    intro res hres m
    simp only [nextItem] at hres
    cases hres
    simp
  | cons l ls ih =>
    intro res hres m
    by_cases hb : s.bailout = true
    · rw [nextItem_bailout _ _ hb] at hres
      cases hres
      simp
    · have hb' : s.bailout = false := by simpa using hb
      cases hlt : line_type l with
      | record =>
        cases hp : parse_record (trimChars l) with
        | done rr rb =>
          obtain ⟨rec, hbuild⟩ := key _ _ _ hp s
          simp only [nextItem, hb', hlt, hp] at hres
          cases hres
          simp [hbuild, Except.mapError]
        | error =>
          simp only [nextItem, hb', hlt, hp] at hres
          cases hres
          simp
        | panicked =>
          simp [nextItem, hb', hlt, hp] at hres
      | scheme =>
        cases hp : parse_scheme (trimChars l) with
        | done rr v =>
          obtain ⟨m', g, c⟩ := v
          simp only [nextItem, hb', hlt, hp] at hres
          exact ih _ _ hres m
        | error =>
          simp only [nextItem, hb', hlt, hp] at hres
          cases hres
          simp
        | panicked =>
          simp [nextItem, hb', hlt, hp] at hres
      | amc =>
        simp only [nextItem, hb', hlt] at hres
        exact ih _ _ hres m
      | blank =>
        simp only [nextItem, hb', hlt] at hres
        exact ih _ _ hres m
      | header =>
        simp only [nextItem, hb', hlt] at hres
        exact ih _ _ hres m

theorem build_never_fails_witness :
    ∀ m : List Char,
      (some (Except.ok
        { code := 1, isin := none, isin_dr := none, name := toChars "x",
          nav := toChars "1", date := { year := 2020, month := 1, day := 1 },
          amc := [], category := [], scheme := none, maturity := none,
          plan := FundPlan.regular, option := none }) : Option Item) ≠
      some (Except.error (AmfiError.builderError m)) :=
  fun m => build_never_fails.2 NavRecordIterator.new
    [toChars "1;-;-;x;1;01-Jan-2020"] _ rfl m

